import Mathlib

/-!
Shallow embedding of the resumable streaming ingestion pipeline:
the checkpoint store (`scripts/etl/utils/state_manager.py`), the source
enumerator (`scripts/etl/download/streaming_downloader.py`) and the buffered
batch loader (`scripts/etl/transform/streaming_processor.py`).

Python dictionaries are modelled as insertion-ordered association lists over
`String` keys; `datetime.now()` values are passed in as explicit `now`
parameters; the filesystem holding the persisted checkpoint document and its
backup snapshots is modelled explicitly (`Fs`), with `_save_state` represented
as the sequence of file operations the code performs, so that ordering and
intermediate (partially written) file states are observable.
-/

/-- A normalized row destined for a destination table, abstracted to an
identifier; the per-field content is irrelevant to the pipeline logic. -/
abbrev Row := Nat

/-- Python `d.get(k)` / `k in d` on a string-keyed dict. -/
def getVal {α : Type} : List (String × α) → String → Option α
  | [], _ => none
  | (k, v) :: rest, key => if k = key then some v else getVal rest key

/-- Python `d[k] = v`: replace in place when the key exists, else append
(dicts preserve insertion order). -/
def setVal {α : Type} (key : String) (v : α) : List (String × α) → List (String × α)
  | [] => [(key, v)]
  | (k, w) :: rest => if k = key then (key, v) :: rest else (k, w) :: setVal key v rest

/-- `state['total_processed'][count_key] += 1`, guarded by
`if count_key in state['total_processed']` (absent keys are left alone). -/
def incVal (key : String) : List (String × Nat) → List (String × Nat)
  | [] => []
  | (k, v) :: rest => if k = key then (k, v + 1) :: rest else (k, v) :: incVal key rest

/-- Python string `<` (code-point lexicographic) on one code point. -/
def charLtB (a b : Char) : Bool := decide (a < b)

/-- Python string `<` on the underlying code-point sequences. -/
def listLtB : List Char → List Char → Bool
  | [], [] => false
  | [], _ :: _ => true
  | _ :: _, [] => false
  | a :: as, b :: bs => charLtB a b || (decide (a = b) && listLtB as bs)

/-- Python `a < b` on strings. -/
def strLtB (a b : String) : Bool := listLtB a.data b.data

/-- Python `a <= b` on strings (the comparison `sorted` uses). -/
def strLeB (a b : String) : Bool := !(strLtB b a)

/-- Python `s.endswith(suffix)`. -/
def strEndsWith (s suffix : String) : Bool :=
  decide (s.data.drop (s.data.length - suffix.data.length) = suffix.data)

/-- One insertion step of Python `sorted` on strings. -/
def orderedInsertStr (x : String) : List String → List String
  | [] => [x]
  | y :: ys => if strLeB x y then x :: y :: ys else y :: orderedInsertStr x ys

/-- Python `sorted` on a list of names (ascending code-point order). -/
def sortNames : List String → List String
  | [] => []
  | x :: xs => orderedInsertStr x (sortNames xs)

/-- Per-entity slice of the checkpoint document (`state['entities'][e]`).
A dict key that may be absent is an `Option` field defaulting to `none`;
a missing `completed_files` key and an empty list are observationally equal
under every access the code performs (`.get('completed_files', [])`). -/
structure EntityState where
  status : Option String := none
  current_file : Option String := none
  last_processed : Option String := none
  completed_at : Option String := none
  completed_files : List String := []
  deriving Repr, DecidableEq

/-- One element of `state['error_log']`. -/
structure ErrorEntry where
  timestamp : String
  entity_type : String
  error_message : String
  deriving Repr, DecidableEq

/-- The persisted checkpoint document (`ingestion_state.json`). -/
structure CheckpointState where
  version : String
  last_updated : String
  entities : List (String × EntityState)
  total_processed : List (String × Nat)
  error_log : List ErrorEntry
  deriving Repr, DecidableEq

/-- The `total_processed` mapping of `StateManager._create_initial_state`. -/
def initial_counts : List (String × Nat) :=
  [("works_count", 0), ("authors_count", 0), ("sources_count", 0),
   ("institutions_count", 0), ("domains_count", 0), ("fields_count", 0),
   ("subfields_count", 0), ("topics_count", 0), ("publishers_count", 0)]

/-- The document built by `StateManager._create_initial_state` (its
filesystem side effects are modelled separately below). -/
def initial_state (now : String) : CheckpointState :=
  { version := "1.0"
    last_updated := now
    entities := []
    total_processed := initial_counts
    error_log := [] }

/-- The load-modify core of `StateManager.mark_file_complete`: ensure the
entity exists, append the file to `completed_files` unless already present,
increment `total_processed[f'{entity_type}_count']` when that key exists,
and refresh `last_updated`. -/
def mark_file_complete (now entity_type file_path : String)
    (state : CheckpointState) : CheckpointState :=
  let es := (getVal state.entities entity_type).getD {}
  let es := { es with completed_files :=
      if file_path ∈ es.completed_files then es.completed_files
      else es.completed_files ++ [file_path] }
  { state with
      entities := setVal entity_type es state.entities
      total_processed := incVal (entity_type ++ "_count") state.total_processed
      last_updated := now }

/-- The load-modify core of `StateManager.save_state` (records the current
file and status for an entity type). -/
def save_state (now entity_type current_file status : String)
    (state : CheckpointState) : CheckpointState :=
  let es := (getVal state.entities entity_type).getD {}
  let es := { es with
      current_file := some current_file
      last_processed := some now
      status := some status }
  { state with
      entities := setVal entity_type es state.entities
      last_updated := now }

/-- The load-modify core of `StateManager.mark_entity_complete`. -/
def mark_entity_complete (now entity_type : String)
    (state : CheckpointState) : CheckpointState :=
  let es := (getVal state.entities entity_type).getD {}
  let es := { es with
      status := some "completed"
      completed_at := some now }
  { state with
      entities := setVal entity_type es state.entities
      last_updated := now }

/-- `StateManager.is_file_processed` on a loaded checkpoint document. -/
def is_file_processed (entity_type file_path : String)
    (state : CheckpointState) : Bool :=
  match getVal state.entities entity_type with
  | none => false
  | some es => decide (file_path ∈ es.completed_files)

/-- `StateManager.is_entity_completed` on a loaded checkpoint document. -/
def is_entity_completed (entity_type : String) (state : CheckpointState) : Bool :=
  match getVal state.entities entity_type with
  | none => false
  | some es => decide (es.status = some "completed")

/-- The `completed_files` list the checkpoint document reports for an entity
type (empty when the entity or the key is absent). -/
def completedOf (entity_type : String) (state : CheckpointState) : List String :=
  match getVal state.entities entity_type with
  | none => []
  | some es => es.completed_files

example : is_file_processed "authors" "a.gz"
    (mark_file_complete "t1" "authors" "a.gz" (initial_state "t0")) = true := by decide

example : getVal (mark_file_complete "t1" "authors" "a.gz"
    (initial_state "t0")).total_processed "authors_count" = some 1 := by decide

/-! ## Persisted checkpoint file and backup directory -/

/-- Observable content of a file on disk.  A file being (re)written in `'w'`
mode passes through a truncated state that is not a parseable document. -/
inductive FileContent where
  /-- The file has been opened with `'w'` (truncated); `json.dump` has not
  finished, so the content is not a complete JSON document. -/
  | empty
  /-- A completely serialized checkpoint document. -/
  | doc (state : CheckpointState)
  /-- Unparseable bytes (a corrupt file). -/
  | invalid
  deriving Repr, DecidableEq

/-- `json.load` on a file's content. -/
def parseContent : FileContent → Option CheckpointState
  | .doc s => some s
  | _ => none

/-- The state directory: the primary checkpoint file (`ingestion_state.json`,
`none` when absent) and the backup directory (filename to content, in
creation order). -/
structure Fs where
  primary : Option FileContent
  backups : List (String × FileContent)
  deriving Repr, DecidableEq

/-- A primitive filesystem operation performed by the checkpoint store. -/
inductive FsOp where
  /-- Write a complete backup snapshot (`json.dump` into a fresh backup file). -/
  | writeBackup (name : String) (state : CheckpointState)
  /-- `os.remove` of a backup file. -/
  | removeBackup (name : String)
  /-- `open(state_file, 'w')`: truncate the primary file in place. -/
  | truncatePrimary
  /-- `json.dump(state, f)` completing on the primary file. -/
  | writeDocPrimary (state : CheckpointState)
  /-- `shutil.copy2(backup, state_file)`: replace the primary's content. -/
  | copyToPrimary (content : FileContent)
  deriving Repr, DecidableEq

/-- Effect of one filesystem operation. -/
def applyOp (fs : Fs) : FsOp → Fs
  | .writeBackup name st => { fs with backups := setVal name (.doc st) fs.backups }
  | .removeBackup name => { fs with backups := fs.backups.filter (fun p => decide (p.1 ≠ name)) }
  | .truncatePrimary => { fs with primary := some .empty }
  | .writeDocPrimary st => { fs with primary := some (.doc st) }
  | .copyToPrimary c => { fs with primary := some c }

/-- Run a sequence of filesystem operations in order. -/
def applyOps (fs : Fs) (ops : List FsOp) : Fs := ops.foldl applyOp fs

/-- `f'state_backup_{timestamp}.json'`. -/
def backup_filename (ts : String) : String := "state_backup_" ++ ts ++ ".json"

/-- `StateManager._backup_state` as the sequence of filesystem operations it
performs: write the snapshot of the incoming state, then — when more than 10
files remain in the backup directory — delete all but the last 10 of
`sorted(os.listdir(backup_dir))`. -/
def backup_ops (ts : String) (st : CheckpointState) (fs : Fs) : List FsOp :=
  let bname := backup_filename ts
  let names := sortNames ((setVal bname (FileContent.doc st) fs.backups).map Prod.fst)
  FsOp.writeBackup bname st ::
    (if 10 < names.length then (names.take (names.length - 10)).map FsOp.removeBackup
     else [])

/-- `StateManager._save_state` as its operation sequence: back up the incoming
state, then truncate and rewrite the primary checkpoint file in place. -/
def save_state_ops (ts : String) (st : CheckpointState) (fs : Fs) : List FsOp :=
  backup_ops ts st fs ++ [FsOp.truncatePrimary, FsOp.writeDocPrimary st]

/-- `StateManager._save_state` (happy path of its `try` blocks). -/
def saveStateFs (ts : String) (st : CheckpointState) (fs : Fs) : Fs :=
  applyOps fs (save_state_ops ts st fs)

/-- `StateManager._create_initial_state`: build the initial document and
persist it. -/
def _create_initial_state (now : String) (fs : Fs) : CheckpointState × Fs :=
  (initial_state now, saveStateFs now (initial_state now) fs)

/-- `StateManager._restore_from_backup`: read the lexicographically last
backup; on a parseable document copy it over the primary file and return it,
otherwise fall back to a fresh initial state. -/
def _restore_from_backup (now : String) (fs : Fs) : CheckpointState × Fs :=
  match (sortNames (fs.backups.map Prod.fst)).getLast? with
  | none => _create_initial_state now fs
  | some latest =>
    match (getVal fs.backups latest).bind parseContent with
    | some st => (st, applyOps fs [FsOp.copyToPrimary (FileContent.doc st)])
    | none => _create_initial_state now fs

/-- `StateManager._load_state`: missing file synthesizes (and persists) an
initial state; a file that fails to parse triggers backup restoration. -/
def _load_state (now : String) (fs : Fs) : CheckpointState × Fs :=
  match fs.primary with
  | none => _create_initial_state now fs
  | some c =>
    match parseContent c with
    | some st => (st, fs)
    | none => _restore_from_backup now fs

/-- Per-entity slice of `StateManager.get_state_summary`'s result. -/
structure EntitySummary where
  status : String
  last_processed_file : Option String
  completed_files_count : Nat
  deriving Repr, DecidableEq

/-- Result shape of `StateManager.get_state_summary`. -/
structure StateSummary where
  last_updated : String
  total_processed : List (String × Nat)
  entities : List (String × EntitySummary)
  deriving Repr, DecidableEq

/-- The pure summarization step of `StateManager.get_state_summary`. -/
def summarize (st : CheckpointState) : StateSummary :=
  { last_updated := st.last_updated
    total_processed := st.total_processed
    entities := st.entities.map (fun p =>
      (p.1,
        { status := p.2.status.getD "not_started"
          last_processed_file := p.2.current_file
          completed_files_count := p.2.completed_files.length })) }

/-- `StateManager.get_state_summary`: load the persisted state (which can
touch the filesystem) and summarize it. -/
def get_state_summary (now : String) (fs : Fs) : StateSummary × Fs :=
  ((_load_state now fs).1 |> summarize, (_load_state now fs).2)

example :
    (saveStateFs "t1" (initial_state "t1") { primary := none, backups := [] }).primary
      = some (FileContent.doc (initial_state "t1")) := by decide

/-! ## Source enumerator (`streaming_downloader.py`) -/

/-- `StreamingDownloader.get_latest_date_folder`, applied to the already
filtered `updated_date=` partition names: `sorted(date_folders)[-1]`, or
`None` when the listing produced no partition. -/
def get_latest_date_folder (date_folders : List String) : Option String :=
  if date_folders.isEmpty then none
  else (sortNames date_folders).getLast?

/-- The descriptor `list_s3_files` builds per remote file. -/
structure FileInfo where
  folder : String
  name : String
  full_path : String
  deriving Repr, DecidableEq

/-- The per-line accumulation loop of `StreamingDownloader.list_s3_files`:
keep `.gz` entries, build the descriptor whose idempotency key is
`folder + name`, and skip descriptors the checkpoint store reports
as already processed. -/
def list_s3_files_go (entity_type latest : String) (state : CheckpointState) :
    List String → List FileInfo
  | [] => []
  | n :: ns =>
    if strEndsWith n ".gz" then
      if is_file_processed entity_type (latest ++ n) state then
        list_s3_files_go entity_type latest state ns
      else
        { folder := latest, name := n, full_path := latest ++ n } ::
          list_s3_files_go entity_type latest state ns
    else list_s3_files_go entity_type latest state ns

/-- `StreamingDownloader.list_s3_files`: empty when no partition is found,
otherwise the filtered listing of the latest partition.  `file_names` is the
remote listing of that partition; `state` is the loaded checkpoint document
`is_file_processed` consults. -/
def list_s3_files (entity_type : String) (date_folders file_names : List String)
    (state : CheckpointState) : List FileInfo :=
  match get_latest_date_folder date_folders with
  | none => []
  | some latest => list_s3_files_go entity_type latest state file_names

/-- The per-file loop of `StreamingDownloader.process_entity`: record the file
as in progress, download it (`dlOk`, keyed by the idempotency key), run the
processor callback (`procOk`), mark complete only on callback success, and
stop with failure on the first download or processing failure; mark the whole
entity complete after the last file. -/
def process_entity_go (now entity_type : String) (dlOk procOk : String → Bool) :
    List FileInfo → CheckpointState → CheckpointState × Bool
  | [], st => (mark_entity_complete now entity_type st, true)
  | fi :: rest, st =>
    if dlOk fi.full_path then
      if procOk fi.full_path then
        process_entity_go now entity_type dlOk procOk rest
          (mark_file_complete now entity_type fi.full_path
            (save_state now entity_type fi.full_path "in_progress" st))
      else (save_state now entity_type fi.full_path "in_progress" st, false)
    else (save_state now entity_type fi.full_path "in_progress" st, false)

/-- `StreamingDownloader.process_entity` (with a processor callback): skip a
completed entity, fail when the listing is empty, else run the per-file loop. -/
def process_entity (now entity_type : String) (date_folders file_names : List String)
    (dlOk procOk : String → Bool) (st : CheckpointState) : CheckpointState × Bool :=
  if is_entity_completed entity_type st then (st, true)
  else
    let files := list_s3_files entity_type date_folders file_names st
    if files.isEmpty then (st, false)
    else process_entity_go now entity_type dlOk procOk files st

/-! ## Batch processor (`streaming_processor.py`) -/

/-- The accumulation-buffer keys of `StreamingProcessor.process_file`. -/
def batchKeys : List String :=
  ["main", "ids", "counts_by_year", "authorships", "related_works",
   "referenced_works", "concepts", "open_access", "geo",
   "associated_institutions", "domains", "fields", "subfields", "topics",
   "publishers"]

/-- The `current_batches` dictionary: buffer key to accumulated rows. -/
abbrev Batches := List (String × List Row)

/-- All buffers reset to `[]`. -/
def emptyBatches : Batches := batchKeys.map (fun k => (k, []))

/-- `current_batches[k]` (empty for an absent key). -/
def getBatch (b : Batches) (k : String) : List Row := (getVal b k).getD []

/-- `any(current_batches.values())`. -/
def anyNonempty (b : Batches) : Bool := b.any (fun p => !p.2.isEmpty)

/-- `StreamingProcessor._collect_batches`: extend each buffer with the rows
the normalized record contributes to it (`contrib` is the record's output
keyed by buffer key, after the entity's batch-key/data-key mapping). -/
def _collect_batches (contrib : List (String × List Row)) (b : Batches) : Batches :=
  b.map (fun p => (p.1, p.2 ++ (getVal contrib p.1).getD []))

/-- Outcome of `json.loads` plus the entity processor on one line:
a parse/processor error, a falsy (skipped) record, or a normalized record
with its buffer contributions. -/
inductive LineResult where
  | parseError
  | skip
  | record (contrib : List (String × List Row))
  deriving Repr, DecidableEq

/-- The line loop of `StreamingProcessor.process_file`, parameterized by the
flush collaborator `load` (modelling `load_batches` against loader state `σ`,
returning success).  Returns (loader state, (success, `records_processed`,
`errors`)).  Mirrors the source line by line: an error line increments
`errors` and aborts at the `max_errors` ceiling; when the `main` buffer
reaches `batch_size` the buffers are flushed, a failed flush counts as one
error, and — success or failure — `records_processed` grows by the flushed
`main` length and every buffer is reset; at end of file any non-empty buffers
are flushed, a failure there aborting directly; otherwise the result is
`errors < max_errors`. -/
def process_file_go {σ : Type} (batch_size max_errors : Nat)
    (load : σ → Batches → σ × Bool) :
    List LineResult → σ → Batches → Nat → Nat → σ × (Bool × Nat × Nat)
  | [], s, cur, rp, errs =>
    if anyNonempty cur then
      match load s cur with
      | (s2, false) => (s2, (false, rp, errs))
      | (s2, true) =>
        (s2, (decide (errs < max_errors), rp + (getBatch cur "main").length, errs))
    else (s, (decide (errs < max_errors), rp, errs))
  | l :: ls, s, cur, rp, errs =>
    match l with
    | .parseError =>
      if max_errors ≤ errs + 1 then (s, (false, rp, errs + 1))
      else process_file_go batch_size max_errors load ls s cur rp (errs + 1)
    | .skip =>
      if batch_size ≤ (getBatch cur "main").length then
        match load s cur with
        | (s2, true) =>
          process_file_go batch_size max_errors load ls s2 emptyBatches
            (rp + (getBatch cur "main").length) errs
        | (s2, false) =>
          if max_errors ≤ errs + 1 then (s2, (false, rp, errs + 1))
          else
            process_file_go batch_size max_errors load ls s2 emptyBatches
              (rp + (getBatch cur "main").length) (errs + 1)
      else process_file_go batch_size max_errors load ls s cur rp errs
    | .record contrib =>
      if batch_size ≤ (getBatch (_collect_batches contrib cur) "main").length then
        match load s (_collect_batches contrib cur) with
        | (s2, true) =>
          process_file_go batch_size max_errors load ls s2 emptyBatches
            (rp + (getBatch (_collect_batches contrib cur) "main").length) errs
        | (s2, false) =>
          if max_errors ≤ errs + 1 then (s2, (false, rp, errs + 1))
          else
            process_file_go batch_size max_errors load ls s2 emptyBatches
              (rp + (getBatch (_collect_batches contrib cur) "main").length) (errs + 1)
      else process_file_go batch_size max_errors load ls s (_collect_batches contrib cur) rp errs

/-- `StreamingProcessor.process_file` on the decoded line stream of one file. -/
def process_file {σ : Type} (batch_size max_errors : Nat)
    (load : σ → Batches → σ × Bool) (lines : List LineResult) (s : σ) :
    σ × (Bool × Nat × Nat) :=
  process_file_go batch_size max_errors load lines s emptyBatches 0 0

/-- Number of malformed (parse- or normalizer-failing) lines in a file. -/
def malformedCount : List LineResult → Nat
  | [] => 0
  | .parseError :: ls => malformedCount ls + 1
  | .skip :: ls => malformedCount ls
  | .record _ :: ls => malformedCount ls

/-! ## Database flush (`StreamingProcessor.load_batches`) -/

/-- The destination store: table name to committed rows. -/
abbrev Db := List (String × List Row)

/-- The `table_mapping` dictionary of `StreamingProcessor.load_batches`:
entity type to its (batch key, table suffix) pairs. -/
def table_mapping : List (String × List (String × String)) :=
  [("works",
    [("main", "works"), ("ids", "works_ids"), ("open_access", "works_open_access"),
     ("authorships", "works_authorships"), ("related_works", "works_related_works"),
     ("referenced_works", "works_referenced_works"), ("concepts", "works_concepts"),
     ("counts_by_year", "works_counts_by_year")]),
   ("authors",
    [("main", "authors"), ("ids", "authors_ids"),
     ("counts_by_year", "authors_counts_by_year"), ("concepts", "authors_concepts")]),
   ("sources",
    [("main", "sources"), ("ids", "sources_ids"),
     ("counts_by_year", "sources_counts_by_year")]),
   ("institutions",
    [("main", "institutions"), ("ids", "institutions_ids"), ("geo", "institutions_geo"),
     ("counts_by_year", "institutions_counts_by_year"),
     ("associated_institutions", "institutions_associated_institutions")]),
   ("domains", [("main", "domains"), ("counts_by_year", "domains_counts_by_year")]),
   ("fields", [("main", "fields"), ("counts_by_year", "fields_counts_by_year")]),
   ("subfields", [("main", "subfields"), ("counts_by_year", "subfields_counts_by_year")]),
   ("topics", [("main", "topics"), ("counts_by_year", "topics_counts_by_year")]),
   ("publishers",
    [("main", "publishers"), ("ids", "publishers_ids"),
     ("counts_by_year", "publishers_counts_by_year")])]

/-- The per-table writes one flush issues: for each mapped batch key with
buffered rows, one `execute_values` upsert into `openalex.<table>`. -/
def flushWrites (entity_type : String) (batches : Batches) :
    List (String × List Row) :=
  match getVal table_mapping entity_type with
  | none => []
  | some m =>
    m.filterMap (fun p =>
      let rows := getBatch batches p.1
      if rows.isEmpty then none else some ("openalex." ++ p.2, rows))

/-- One table's upsert applied to the store (row-level conflict resolution is
abstracted; only which rows were committed matters here). -/
def upsertRows (t : String) (rows : List Row) (db : Db) : Db :=
  setVal t (((getVal db t).getD []) ++ rows) db

/-- Execute the flush's writes inside the open transaction; `writeOk` tells
which writes the destination store accepts.  A raised error anywhere yields
`none` (nothing becomes visible before `commit`). -/
def execWrites (writeOk : String → List Row → Bool) :
    List (String × List Row) → Db → Option Db
  | [], db => some db
  | (t, rows) :: rest, db =>
    if writeOk t rows then execWrites writeOk rest (upsertRows t rows db)
    else none

/-- `StreamingProcessor.load_batches`: reject an unsupported entity type; run
every per-table write, then `conn.commit()`; on any error `conn.rollback()`
leaves the committed store unchanged and the call returns failure. -/
def load_batches (writeOk : String → List Row → Bool) (entity_type : String)
    (batches : Batches) (db : Db) : Db × Bool :=
  if (getVal table_mapping entity_type).isNone then (db, false)
  else
    match execWrites writeOk (flushWrites entity_type batches) db with
    | some db2 => (db2, true)
    | none => (db, false)

/-! ## Association-list lemmas -/

theorem getVal_setVal_self {α : Type} (k : String) (v : α) :
    ∀ l : List (String × α), getVal (setVal k v l) k = some v
  | [] => by simp [getVal, setVal]
  | (k1, w) :: rest => by
    by_cases h : k1 = k
    · simp [setVal, h, getVal]
    · simp [setVal, h, getVal, getVal_setVal_self k v rest]

theorem getVal_setVal_ne {α : Type} (k k' : String) (v : α) (h : k' ≠ k) :
    ∀ l : List (String × α), getVal (setVal k v l) k' = getVal l k'
  | [] => by simp [getVal, setVal, Ne.symm h]
  | (k1, w) :: rest => by
    by_cases hk : k1 = k
    · subst hk
      simp [setVal, getVal, Ne.symm h, h]
    · simp [setVal, hk, getVal, getVal_setVal_ne k k' v h rest]

theorem setVal_setVal {α : Type} (k : String) (v w : α) :
    ∀ l : List (String × α), setVal k v (setVal k w l) = setVal k v l
  | [] => by simp [setVal]
  | (k1, u) :: rest => by
    by_cases h : k1 = k
    · simp [setVal, h]
    · simp [setVal, h, setVal_setVal k v w rest]

theorem getVal_incVal (k : String) :
    ∀ l : List (String × Nat), getVal (incVal k l) k = (getVal l k).map (· + 1)
  | [] => by simp [getVal, incVal]
  | (k1, v) :: rest => by
    by_cases h : k1 = k
    · simp [incVal, h, getVal]
    · simp [incVal, h, getVal, getVal_incVal k rest]

/-! ## The embedded string comparison agrees with lexicographic order -/

theorem listLtB_lex : ∀ as bs : List Char, listLtB as bs = true ↔ List.Lex (· < ·) as bs
  | [], [] => by simp [listLtB]
  | [], b :: bs => by simpa [listLtB] using List.Lex.nil
  | a :: as, [] => by simp [listLtB]
  | a :: as, b :: bs => by
    simp only [listLtB, Bool.or_eq_true, Bool.and_eq_true, decide_eq_true_eq, charLtB]
    constructor
    · rintro (h | ⟨rfl, h⟩)
      · exact List.Lex.rel h
      · exact List.Lex.cons ((listLtB_lex as bs).mp h)
    · intro h
      cases h with
      | cons h => exact Or.inr ⟨rfl, (listLtB_lex as bs).mpr h⟩
      | rel h => exact Or.inl h

theorem strLtB_iff (a b : String) : strLtB a b = true ↔ a < b := by
  rw [String.lt_iff_toList_lt]
  exact listLtB_lex a.data b.data

theorem strLeB_iff (a b : String) : strLeB a b = true ↔ a ≤ b := by
  rw [strLeB, Bool.not_eq_true', ← Bool.not_eq_true, not_iff_comm, strLtB_iff, ← not_le]

theorem orderedInsertStr_eq (x : String) :
    ∀ l : List String, orderedInsertStr x l = List.orderedInsert (· ≤ ·) x l
  | [] => rfl
  | y :: ys => by
    by_cases h : x ≤ y
    · simp [orderedInsertStr, List.orderedInsert, h, (strLeB_iff x y).mpr h]
    · have hb : strLeB x y = false := by
        rw [← Bool.not_eq_true, strLeB_iff]
        exact h
      simp [orderedInsertStr, List.orderedInsert, h, hb, orderedInsertStr_eq x ys]

theorem sortNames_eq : ∀ l : List String, sortNames l = List.insertionSort (· ≤ ·) l
  | [] => rfl
  | x :: xs => by
    simp [sortNames, List.insertionSort, sortNames_eq xs, orderedInsertStr_eq]

theorem sortNames_perm (l : List String) : List.Perm (sortNames l) l := by
  rw [sortNames_eq]
  exact List.perm_insertionSort _ _

theorem sortNames_sorted (l : List String) : List.Sorted (· ≤ ·) (sortNames l) := by
  rw [sortNames_eq]
  exact List.sorted_insertionSort _ _

theorem sorted_le_getLast :
    ∀ (l : List String), List.Sorted (· ≤ ·) l → ∀ (hne : l ≠ []) (x : String),
      x ∈ l → x ≤ l.getLast hne
  | [], _, hne, _, _ => absurd rfl hne
  | [a], _, _, x, hx => by
    simp only [List.mem_singleton] at hx
    subst hx
    simp [List.getLast]
  | a :: b :: t, hs, _, x, hx => by
    rw [List.sorted_cons] at hs
    obtain ⟨ha, hs'⟩ := hs
    rw [List.getLast_cons (List.cons_ne_nil b t)]
    rcases List.mem_cons.mp hx with rfl | hx'
    · exact ha _ (List.getLast_mem (List.cons_ne_nil b t))
    · exact sorted_le_getLast (b :: t) hs' (List.cons_ne_nil b t) x hx'

/-! ## C8: partition selection -/

/-- C8: for every non-empty sequence of listed partition names, the
Enumerator selects the string-lexicographic maximum as the current partition
(for `["updated_date=2024-01-01/", "updated_date=2024-02-01/"]` that is
`"updated_date=2024-02-01/"`), even when the string maximum is not the
chronologically latest partition (non-zero-padded example), and it returns
no partition for an empty listing. -/
theorem C8_partition_selection (date_folders : List String) :
    (∀ h : date_folders ≠ [], ∃ m, get_latest_date_folder date_folders = some m
        ∧ m ∈ date_folders ∧ ∀ x ∈ date_folders, x ≤ m)
    ∧ get_latest_date_folder [] = none
    ∧ get_latest_date_folder ["updated_date=2024-01-01/", "updated_date=2024-02-01/"]
        = some "updated_date=2024-02-01/"
    ∧ get_latest_date_folder ["updated_date=2024-9-01/", "updated_date=2024-10-01/"]
        = some "updated_date=2024-9-01/" := by
  refine ⟨?_, rfl, by decide, by decide⟩
  intro h
  have hne : sortNames date_folders ≠ [] := by
    intro hs
    apply h
    have hp := sortNames_perm date_folders
    rw [hs] at hp
    exact hp.symm.eq_nil
  have hempty : date_folders.isEmpty = false := by
    cases date_folders with
    | nil => exact absurd rfl h
    | cons a t => rfl
  refine ⟨(sortNames date_folders).getLast hne, ?_, ?_, ?_⟩
  · simp only [get_latest_date_folder, hempty, Bool.false_eq_true, if_false]
    exact List.getLast?_eq_getLast _ hne
  · exact (sortNames_perm date_folders).mem_iff.mp (List.getLast_mem hne)
  · intro x hx
    exact sorted_le_getLast _ (sortNames_sorted _) hne x
      ((sortNames_perm date_folders).mem_iff.mpr hx)

/-- Witness for C8 at the spec's concrete two-partition listing. -/
theorem C8_partition_selection_witness :
    ∃ m, get_latest_date_folder ["updated_date=2024-01-01/", "updated_date=2024-02-01/"]
        = some m
      ∧ m ∈ ["updated_date=2024-01-01/", "updated_date=2024-02-01/"]
      ∧ ∀ x ∈ ["updated_date=2024-01-01/", "updated_date=2024-02-01/"], x ≤ m :=
  (C8_partition_selection ["updated_date=2024-01-01/", "updated_date=2024-02-01/"]).1
    (by decide)

/-! ## C1: the listing excludes completed files -/

theorem list_s3_files_go_not_processed (entity_type latest : String)
    (state : CheckpointState) :
    ∀ (ns : List String) (fi : FileInfo), fi ∈ list_s3_files_go entity_type latest state ns →
      is_file_processed entity_type fi.full_path state = false
  | [], fi, h => absurd h (List.not_mem_nil fi)
  | n :: ns, fi, h => by
    by_cases h1 : strEndsWith n ".gz" = true
    · by_cases h2 : is_file_processed entity_type (latest ++ n) state = true
      · rw [list_s3_files_go, if_pos h1, if_pos h2] at h
        exact list_s3_files_go_not_processed entity_type latest state ns fi h
      · rw [list_s3_files_go, if_pos h1, if_neg h2] at h
        rcases List.mem_cons.mp h with rfl | h'
        · exact Bool.not_eq_true _ |>.mp h2
        · exact list_s3_files_go_not_processed entity_type latest state ns fi h'
    · rw [list_s3_files_go, if_neg h1] at h
      exact list_s3_files_go_not_processed entity_type latest state ns fi h

/-- C1: every file the Source Enumerator returns for an entity type has an
idempotency key (`partition + filename`) that the checkpoint store does NOT
report as completed — a file already in `completed_files` is excluded from
the listing, hence never re-fetched or re-loaded — and when no partition can
be found the listing is the empty sequence rather than an error. -/
theorem C1_listing_skips_completed (entity_type : String)
    (date_folders file_names : List String) (state : CheckpointState) :
    (∀ fi ∈ list_s3_files entity_type date_folders file_names state,
        is_file_processed entity_type fi.full_path state = false)
    ∧ (get_latest_date_folder date_folders = none →
        list_s3_files entity_type date_folders file_names state = []) := by
  constructor
  · intro fi hfi
    rw [list_s3_files] at hfi
    cases hlatest : get_latest_date_folder date_folders with
    | none =>
      rw [hlatest] at hfi
      exact absurd hfi (List.not_mem_nil fi)
    | some latest =>
      rw [hlatest] at hfi
      exact list_s3_files_go_not_processed entity_type latest state file_names fi hfi
  · intro h
    rw [list_s3_files, h]

/-- A checkpoint document in which `authors` has one completed file. -/
def stC1 : CheckpointState :=
  mark_file_complete "t1" "authors" "updated_date=2024-02-01/a.gz" (initial_state "t0")

/-- Witness for C1: in a partition listing with one completed and one new
file, the returned descriptor is not completed, and an empty partition
listing yields the empty sequence. -/
theorem C1_listing_skips_completed_witness :
    is_file_processed "authors"
      (FileInfo.mk "updated_date=2024-02-01/" "b.gz" "updated_date=2024-02-01/b.gz").full_path
      stC1 = false
    ∧ list_s3_files "authors" [] ["a.gz"] stC1 = [] :=
  ⟨(C1_listing_skips_completed "authors"
        ["updated_date=2024-01-01/", "updated_date=2024-02-01/"] ["a.gz", "b.gz"] stC1).1
      (FileInfo.mk "updated_date=2024-02-01/" "b.gz" "updated_date=2024-02-01/b.gz")
      (by decide),
   (C1_listing_skips_completed "authors" [] ["a.gz"] stC1).2 (by decide)⟩

/-! ## C2: `total_processed` counts files, not records -/

/-- A flush collaborator that always succeeds (healthy destination store). -/
def alwaysOkLoad : Unit → Batches → Unit × Bool := fun s _ => (s, true)

/-- A file whose two lines each normalize to one valid `main` record. -/
def twoRecordLines : List LineResult :=
  [LineResult.record [("main", [1])], LineResult.record [("main", [2])]]

/-- C2 counterexample: a file with `k = 2` valid records is successfully
processed (`records_processed = 2`, no errors), yet marking it complete
moves `total_processed['authors_count']` from `0` to `1`, not to `0 + 2`:
the count grows by one per completed file, not by the number of records. -/
theorem C2_counterexample :
    (process_file 1000 100 alwaysOkLoad twoRecordLines ()).2 = (true, 2, 0)
    ∧ getVal (mark_file_complete "t1" "authors" "f.gz" (initial_state "t0")).total_processed
        "authors_count" = some 1
    ∧ getVal (mark_file_complete "t1" "authors" "f.gz" (initial_state "t0")).total_processed
        "authors_count" ≠ some (0 + 2) := by decide

/-- C2 amended: for every entity type and file, marking the file complete
changes `total_processed[f'{entity_type}_count']` by exactly one (when the
key exists; an unknown key stays absent), independent of how many records
the file contained — the counter counts completed files. -/
theorem C2_total_processed_counts_files (now entity_type file_path : String)
    (state : CheckpointState) :
    getVal (mark_file_complete now entity_type file_path state).total_processed
        (entity_type ++ "_count")
      = (getVal state.total_processed (entity_type ++ "_count")).map (· + 1) := by
  simp [mark_file_complete, getVal_incVal]

/-! ## C3: re-marking is not idempotent on the counters -/

/-- C3 counterexample: marking the same `(entity_type, file_key)` a second
time does NOT leave the checkpoint state identical — `total_processed`
changes again (from `authors_count = 1` to `2`). -/
theorem C3_counterexample :
    (mark_file_complete "t2" "authors" "f.gz"
        (mark_file_complete "t1" "authors" "f.gz" (initial_state "t0"))).total_processed
      ≠ (mark_file_complete "t1" "authors" "f.gz" (initial_state "t0")).total_processed := by
  decide

/-- C3 amended: a second `mark_file_complete` with the same
`(entity_type, file_key)` leaves `entities` — in particular the
`completed_files` membership — exactly as after the first call, but applies
the `total_processed` increment again; marking is idempotent only on
`completed_files`, not on the counters. -/
theorem C3_remark_keeps_files_increments_count
    (now1 now2 entity_type file_path : String) (state : CheckpointState) :
    (mark_file_complete now2 entity_type file_path
        (mark_file_complete now1 entity_type file_path state)).entities
      = (mark_file_complete now1 entity_type file_path state).entities
    ∧ (mark_file_complete now2 entity_type file_path
        (mark_file_complete now1 entity_type file_path state)).total_processed
      = incVal (entity_type ++ "_count")
          (mark_file_complete now1 entity_type file_path state).total_processed := by
  refine ⟨?_, rfl⟩
  simp only [mark_file_complete, getVal_setVal_self, Option.getD_some]
  by_cases hm : file_path ∈ ((getVal state.entities entity_type).getD {}).completed_files
  · simp [hm, setVal_setVal]
  · simp [hm, setVal_setVal]

/-! ## C4: the checkpoint save is not atomic at the file level -/

theorem setVal_length {α : Type} (k : String) (v : α) :
    ∀ l : List (String × α), (setVal k v l).length ≤ l.length + 1
  | [] => by simp [setVal]
  | (k1, w) :: rest => by
    by_cases h : k1 = k
    · simp [setVal, h]
    · simpa [setVal, h] using setVal_length k v rest

/-- The state document on disk before the save of C4's scenario. -/
def docOld : CheckpointState := initial_state "t0"

/-- The updated state document being saved in C4's scenario. -/
def docNew : CheckpointState := mark_file_complete "t1" "authors" "f.gz" docOld

/-- A state directory holding the old document and no backups. -/
def fsC4 : Fs := { primary := some (FileContent.doc docOld), backups := [] }

/-- C4 counterexample: during `_save_state` the primary checkpoint file
passes through the truncated state `empty` — observable by a concurrent
reader — which is neither the previously persisted document nor the new
one, so the save is not atomic (there is no write-to-temp-then-rename or
equivalent guarantee). -/
theorem C4_counterexample :
    (applyOps fsC4 ((save_state_ops "t1" docNew fsC4).take 2)).primary
      = some FileContent.empty
    ∧ some FileContent.empty ≠ fsC4.primary
    ∧ some FileContent.empty ≠ (applyOps fsC4 (save_state_ops "t1" docNew fsC4)).primary := by
  decide

/-- C4 amended: `_save_state` first writes a backup snapshot of the incoming
state (primary untouched at that point), then overwrites the primary
checkpoint file IN PLACE — truncate, then rewrite — so a concurrent reader
can observe the truncated intermediate file; atomicity is not provided by a
temp-file rename, and recovery from a torn write relies on the backup. -/
theorem C4_save_overwrites_in_place (ts : String) (st : CheckpointState) (fs : Fs)
    (h : fs.backups.length < 10) :
    save_state_ops ts st fs
      = [FsOp.writeBackup (backup_filename ts) st, FsOp.truncatePrimary,
         FsOp.writeDocPrimary st]
    ∧ getVal (applyOps fs ((save_state_ops ts st fs).take 1)).backups (backup_filename ts)
        = some (FileContent.doc st)
    ∧ (applyOps fs ((save_state_ops ts st fs).take 1)).primary = fs.primary
    ∧ (applyOps fs ((save_state_ops ts st fs).take 2)).primary = some FileContent.empty
    ∧ (applyOps fs (save_state_ops ts st fs)).primary = some (FileContent.doc st) := by
  have h1 := setVal_length (backup_filename ts) (FileContent.doc st) fs.backups
  have h2 : ((setVal (backup_filename ts) (FileContent.doc st) fs.backups).map
      Prod.fst).length = (setVal (backup_filename ts) (FileContent.doc st) fs.backups).length :=
    List.length_map _ _
  have h3 := (sortNames_perm ((setVal (backup_filename ts) (FileContent.doc st)
      fs.backups).map Prod.fst)).length_eq
  have hlen : ¬ 10 < (sortNames ((setVal (backup_filename ts) (FileContent.doc st)
      fs.backups).map Prod.fst)).length := by omega
  have hops : save_state_ops ts st fs
      = [FsOp.writeBackup (backup_filename ts) st, FsOp.truncatePrimary,
         FsOp.writeDocPrimary st] := by
    simp [save_state_ops, backup_ops, hlen]
  refine ⟨hops, ?_, ?_, ?_, ?_⟩ <;>
    simp [hops, applyOps, applyOp, getVal_setVal_self]

/-- Witness for C4's amended statement at a concrete state directory. -/
theorem C4_save_overwrites_in_place_witness :
    save_state_ops "t1" docNew fsC4
      = [FsOp.writeBackup (backup_filename "t1") docNew, FsOp.truncatePrimary,
         FsOp.writeDocPrimary docNew]
    ∧ getVal (applyOps fsC4 ((save_state_ops "t1" docNew fsC4).take 1)).backups
        (backup_filename "t1") = some (FileContent.doc docNew)
    ∧ (applyOps fsC4 ((save_state_ops "t1" docNew fsC4).take 1)).primary = fsC4.primary
    ∧ (applyOps fsC4 ((save_state_ops "t1" docNew fsC4).take 2)).primary
        = some FileContent.empty
    ∧ (applyOps fsC4 (save_state_ops "t1" docNew fsC4)).primary
        = some (FileContent.doc docNew) :=
  C4_save_overwrites_in_place "t1" docNew fsC4 (by decide)

/-! ## C5: backup-then-commit ordering and backup rotation -/

/-- The sorted backup-directory listing right after the new snapshot is
written (`sorted(os.listdir(self.backup_dir))` in `_backup_state`). -/
def post_backup_names (ts : String) (st : CheckpointState) (fs : Fs) : List String :=
  sortNames ((setVal (backup_filename ts) (FileContent.doc st) fs.backups).map Prod.fst)

theorem applyOps_removeBackups (names : List String) :
    ∀ fs : Fs, (applyOps fs (names.map FsOp.removeBackup)).backups
      = fs.backups.filter (fun p => decide (p.1 ∉ names)) := by
  induction names with
  | nil =>
    intro fs
    simp [applyOps]
  | cons n rest ih =>
    intro fs
    rw [List.map_cons]
    show (applyOps (applyOp fs (FsOp.removeBackup n)) (rest.map FsOp.removeBackup)).backups = _
    rw [ih]
    show (fs.backups.filter fun p => decide (p.1 ≠ n)).filter (fun p => decide (p.1 ∉ rest)) = _
    rw [List.filter_filter]
    apply List.filter_congr
    intro p _
    by_cases h1 : p.1 = n
    · simp [h1]
    · by_cases h2 : p.1 ∈ rest <;> simp [h1, h2]

theorem map_fst_filter {α : Type} (q : String → Bool) :
    ∀ l : List (String × α),
      (l.filter (fun p => q p.1)).map Prod.fst = (l.map Prod.fst).filter q
  | [] => rfl
  | (k, v) :: rest => by
    by_cases h : q k <;> simp [h, map_fst_filter q rest]

theorem mem_keys_setVal {α : Type} (k a : String) (v : α) :
    ∀ l : List (String × α),
      a ∈ (setVal k v l).map Prod.fst → a ∈ l.map Prod.fst ∨ a = k
  | [] => by simp [setVal]
  | (k1, w) :: rest => by
    by_cases h : k1 = k
    · simp [setVal, h]
      tauto
    · simp only [setVal, h, if_false, List.map_cons, List.mem_cons]
      intro hm
      rcases hm with rfl | hm
      · exact Or.inl (Or.inl rfl)
      · rcases mem_keys_setVal k a v rest hm with h' | h'
        · exact Or.inl (Or.inr h')
        · exact Or.inr h'

theorem setVal_keys_nodup {α : Type} (k : String) (v : α) :
    ∀ l : List (String × α),
      (l.map Prod.fst).Nodup → ((setVal k v l).map Prod.fst).Nodup
  | [] => by simp [setVal]
  | (k1, w) :: rest => by
    intro hnd
    rw [List.map_cons, List.nodup_cons] at hnd
    by_cases h : k1 = k
    · subst h
      have hrw : setVal k1 v ((k1, w) :: rest) = (k1, v) :: rest := by
        simp [setVal]
      rw [hrw, List.map_cons, List.nodup_cons]
      exact hnd
    · simp only [setVal, h, if_false, List.map_cons, List.nodup_cons]
      refine ⟨?_, setVal_keys_nodup k v rest hnd.2⟩
      intro hmem
      rcases mem_keys_setVal k k1 v rest hmem with h' | h'
      · exact hnd.1 h'
      · exact h h'

theorem backups_ignore_primary_ops (st : CheckpointState) (ops : List FsOp) (fs : Fs) :
    (applyOps fs (ops ++ [FsOp.truncatePrimary, FsOp.writeDocPrimary st])).backups
      = (applyOps fs ops).backups := by
  rw [applyOps, List.foldl_append]
  rfl

/-- What the backup directory holds after `_save_state`: the directory with
the new snapshot written, pruned — when it then exceeds 10 entries — of the
names `sorted(...)[:-10]`. -/
theorem saveStateFs_backups (ts : String) (st : CheckpointState) (fs : Fs) :
    (saveStateFs ts st fs).backups
      = if 10 < (post_backup_names ts st fs).length then
          (setVal (backup_filename ts) (FileContent.doc st) fs.backups).filter
            (fun p => decide (p.1 ∉ (post_backup_names ts st fs).take
                ((post_backup_names ts st fs).length - 10)))
        else setVal (backup_filename ts) (FileContent.doc st) fs.backups := by
  rw [saveStateFs, save_state_ops, backups_ignore_primary_ops, backup_ops]
  by_cases h : 10 < (post_backup_names ts st fs).length
  · rw [post_backup_names] at h
    simp only [if_pos h]
    show (applyOps (applyOp fs (FsOp.writeBackup (backup_filename ts) st)) _).backups = _
    rw [applyOps_removeBackups]
    rw [post_backup_names, if_pos h]
    rfl
  · rw [post_backup_names] at h
    simp only [if_neg h]
    rw [post_backup_names, if_neg h]
    rfl

theorem filter_not_mem_append (T R : List String) (hdisj : ∀ a ∈ R, a ∉ T) :
    (T ++ R).filter (fun a => decide (a ∉ T)) = R := by
  rw [List.filter_append]
  have hT : T.filter (fun a => decide (a ∉ T)) = [] := by
    rw [List.filter_eq_nil_iff]
    intro a ha
    simp [ha]
  have hR : R.filter (fun a => decide (a ∉ T)) = R := by
    apply List.filter_eq_self.mpr
    intro a ha
    simpa using hdisj a ha
  rw [hT, hR, List.nil_append]

/-- The fifteen distinct, increasing timestamps of the rotation scenario. -/
def saveTimes : List String :=
  ["d01", "d02", "d03", "d04", "d05", "d06", "d07", "d08", "d09", "d10",
   "d11", "d12", "d13", "d14", "d15"]

/-- The state directory after 15 consecutive saves starting from an empty
backup directory. -/
def fs15 : Fs :=
  saveTimes.foldl (fun fs t => saveStateFs t (initial_state t) fs)
    { primary := none, backups := [] }

/-- C5: every save writes the backup snapshot of the incoming state as its
first filesystem operation — before the primary checkpoint file is touched —
and afterwards at most `N = 10` backup snapshots remain, namely the last 10
of the sorted directory listing (the most recent by filename/timestamp
order); concretely, after `N + 5 = 15` saves from an empty directory exactly
the 10 most recent snapshots remain. -/
theorem C5_backup_rotation (ts : String) (st : CheckpointState) (fs : Fs)
    (hnd : (fs.backups.map Prod.fst).Nodup) :
    ((save_state_ops ts st fs).take 1 = [FsOp.writeBackup (backup_filename ts) st]
      ∧ (applyOps fs ((save_state_ops ts st fs).take 1)).primary = fs.primary)
    ∧ List.Perm ((saveStateFs ts st fs).backups.map Prod.fst)
        ((post_backup_names ts st fs).drop ((post_backup_names ts st fs).length - 10))
    ∧ (saveStateFs ts st fs).backups.length ≤ 10
    ∧ (fs15.backups.map Prod.fst
        = ["state_backup_d06.json", "state_backup_d07.json", "state_backup_d08.json",
           "state_backup_d09.json", "state_backup_d10.json", "state_backup_d11.json",
           "state_backup_d12.json", "state_backup_d13.json", "state_backup_d14.json",
           "state_backup_d15.json"]
        ∧ fs15.backups.length = 10) := by
  have hord : (save_state_ops ts st fs).take 1
      = [FsOp.writeBackup (backup_filename ts) st] := by
    simp [save_state_ops, backup_ops]
  have hndD : ((setVal (backup_filename ts) (FileContent.doc st) fs.backups).map
      Prod.fst).Nodup := setVal_keys_nodup _ _ _ hnd
  have hPN : List.Perm (post_backup_names ts st fs)
      ((setVal (backup_filename ts) (FileContent.doc st) fs.backups).map Prod.fst) :=
    sortNames_perm _
  have hndN : (post_backup_names ts st fs).Nodup := hPN.nodup_iff.mpr hndD
  have hBC : List.Perm ((saveStateFs ts st fs).backups.map Prod.fst)
        ((post_backup_names ts st fs).drop ((post_backup_names ts st fs).length - 10))
      ∧ (saveStateFs ts st fs).backups.length ≤ 10 := by
    rw [saveStateFs_backups]
    by_cases hgt : 10 < (post_backup_names ts st fs).length
    · rw [if_pos hgt]
      rw [map_fst_filter
        (fun a => decide (a ∉ (post_backup_names ts st fs).take
          ((post_backup_names ts st fs).length - 10)))
        (setVal (backup_filename ts) (FileContent.doc st) fs.backups)]
      have hdisj : ∀ a ∈ (post_backup_names ts st fs).drop
          ((post_backup_names ts st fs).length - 10),
          a ∉ (post_backup_names ts st fs).take
            ((post_backup_names ts st fs).length - 10) := by
        intro a hdrop htake
        exact (List.disjoint_take_drop hndN (le_refl _)) htake hdrop
      have key : ∀ (T R : List String),
          T ++ R = post_backup_names ts st fs → (∀ a ∈ R, a ∉ T) →
          (post_backup_names ts st fs).filter (fun a => decide (a ∉ T)) = R := by
        intro T R hTR hd
        rw [← hTR]
        exact filter_not_mem_append T R hd
      have hfil := key _ _
        (List.take_append_drop ((post_backup_names ts st fs).length - 10)
          (post_backup_names ts st fs)) hdisj
      have hperm : List.Perm
          (((setVal (backup_filename ts) (FileContent.doc st) fs.backups).map
              Prod.fst).filter
            (fun a => decide (a ∉ (post_backup_names ts st fs).take
              ((post_backup_names ts st fs).length - 10))))
          ((post_backup_names ts st fs).filter
            (fun a => decide (a ∉ (post_backup_names ts st fs).take
              ((post_backup_names ts st fs).length - 10)))) := hPN.symm.filter _
      rw [hfil] at hperm
      refine ⟨hperm, ?_⟩
      have hlen1 : ((setVal (backup_filename ts) (FileContent.doc st) fs.backups).filter
          (fun p => decide (p.1 ∉ (post_backup_names ts st fs).take
            ((post_backup_names ts st fs).length - 10)))).length
          = (((setVal (backup_filename ts) (FileContent.doc st) fs.backups).map
              Prod.fst).filter
            (fun a => decide (a ∉ (post_backup_names ts st fs).take
              ((post_backup_names ts st fs).length - 10)))).length := by
        rw [← map_fst_filter]
        exact (List.length_map _ _).symm
      have hlen2 := hperm.length_eq
      have hlen3 := List.length_drop ((post_backup_names ts st fs).length - 10)
        (post_backup_names ts st fs)
      omega
    · rw [if_neg hgt]
      have hk : (post_backup_names ts st fs).length - 10 = 0 := by omega
      rw [hk, List.drop_zero]
      refine ⟨hPN.symm, ?_⟩
      have hlenD : ((setVal (backup_filename ts) (FileContent.doc st) fs.backups).map
          Prod.fst).length
          = (setVal (backup_filename ts) (FileContent.doc st) fs.backups).length :=
        List.length_map _ _
      have hlenN := hPN.length_eq
      omega
  exact ⟨⟨hord, by rw [hord]; rfl⟩, hBC.1, hBC.2, by decide⟩

/-- Witness for C5 at a concrete directory (one prior document, no backups). -/
theorem C5_backup_rotation_witness :
    ((save_state_ops "t1" docNew fsC4).take 1
        = [FsOp.writeBackup (backup_filename "t1") docNew]
      ∧ (applyOps fsC4 ((save_state_ops "t1" docNew fsC4).take 1)).primary = fsC4.primary)
    ∧ List.Perm ((saveStateFs "t1" docNew fsC4).backups.map Prod.fst)
        ((post_backup_names "t1" docNew fsC4).drop
          ((post_backup_names "t1" docNew fsC4).length - 10))
    ∧ (saveStateFs "t1" docNew fsC4).backups.length ≤ 10
    ∧ (fs15.backups.map Prod.fst
        = ["state_backup_d06.json", "state_backup_d07.json", "state_backup_d08.json",
           "state_backup_d09.json", "state_backup_d10.json", "state_backup_d11.json",
           "state_backup_d12.json", "state_backup_d13.json", "state_backup_d14.json",
           "state_backup_d15.json"]
        ∧ fs15.backups.length = 10) :=
  C5_backup_rotation "t1" docNew fsC4 (by decide)

/-! ## C9: the summary view is not always a pure read -/

theorem saveStateFs_primary (ts : String) (st : CheckpointState) (fs : Fs) :
    (saveStateFs ts st fs).primary = some (FileContent.doc st) := by
  rw [saveStateFs, save_state_ops, applyOps, List.foldl_append]
  rfl

/-- A state directory with no persisted checkpoint file. -/
def fsAbsent : Fs := { primary := none, backups := [] }

/-- C9 counterexample: when the persisted checkpoint file is absent, calling
`get_state_summary` does NOT leave the persisted state unchanged — it
synthesizes an initial state and persists it (primary file written, plus a
backup snapshot), so the summary view is not a pure read in that case. -/
theorem C9_counterexample :
    (get_state_summary "t0" fsAbsent).2.primary
      = some (FileContent.doc (initial_state "t0"))
    ∧ (get_state_summary "t0" fsAbsent).2 ≠ fsAbsent := by
  decide

/-- C9 amended: `get_state_summary` leaves the persisted checkpoint state
unchanged whenever the checkpoint file is present and parseable; but when
the file is absent, the call creates and persists a fresh initial state
(writing the primary file, and a backup) instead of being a pure read. -/
theorem C9_summary_pure_only_when_parseable (now : String) (fs : Fs)
    (st : CheckpointState) (h : fs.primary = some (FileContent.doc st)) :
    get_state_summary now fs = (summarize st, fs)
    ∧ ∀ bs : List (String × FileContent),
        (get_state_summary now { primary := none, backups := bs }).2.primary
          = some (FileContent.doc (initial_state now)) := by
  constructor
  · simp [get_state_summary, _load_state, h, parseContent]
  · intro bs
    simp [get_state_summary, _load_state, _create_initial_state, saveStateFs_primary]

/-- A state directory holding a parseable checkpoint document. -/
def fsDocC9 : Fs := { primary := some (FileContent.doc (initial_state "t0")), backups := [] }

/-- Witness for C9's amended statement. -/
theorem C9_summary_pure_only_when_parseable_witness :
    get_state_summary "t0" fsDocC9 = (summarize (initial_state "t0"), fsDocC9)
    ∧ (get_state_summary "t0" { primary := none, backups := [] }).2.primary
        = some (FileContent.doc (initial_state "t0")) :=
  ⟨(C9_summary_pure_only_when_parseable "t0" fsDocC9 (initial_state "t0") rfl).1,
   (C9_summary_pure_only_when_parseable "t0" fsDocC9 (initial_state "t0") rfl).2 []⟩

/-! ## C6: the error ceiling fails the file, and failed files are not marked -/

theorem process_file_go_success_bound {σ : Type} (batch_size max_errors : Nat)
    (load : σ → Batches → σ × Bool) :
    ∀ (ls : List LineResult) (s : σ) (cur : Batches) (rp errs : Nat),
      (process_file_go batch_size max_errors load ls s cur rp errs).2.1 = true →
      errs + malformedCount ls < max_errors := by
  intro ls
  induction ls with
  | nil =>
    intro s cur rp errs h
    rw [process_file_go] at h
    simp only [malformedCount, Nat.add_zero]
    by_cases ha : anyNonempty cur = true
    · rw [if_pos ha] at h
      rcases hl : load s cur with ⟨s2, ok⟩
      rw [hl] at h
      cases ok
      · simp at h
      · simpa using h
    · rw [if_neg ha] at h
      simpa using h
  | cons l ls ih =>
    intro s cur rp errs h
    cases l with
    | parseError =>
      rw [process_file_go] at h
      by_cases hm : max_errors ≤ errs + 1
      · rw [if_pos hm] at h
        simp at h
      · rw [if_neg hm] at h
        have := ih _ _ _ _ h
        simp only [malformedCount]
        omega
    | skip =>
      rw [process_file_go] at h
      simp only [malformedCount]
      by_cases hb : batch_size ≤ (getBatch cur "main").length
      · rw [if_pos hb] at h
        rcases hl : load s cur with ⟨s2, ok⟩
        rw [hl] at h
        cases ok
        · by_cases hm : max_errors ≤ errs + 1
          · simp [hm] at h
          · simp only [hm, if_false] at h
            have := ih _ _ _ _ h
            omega
        · have := ih _ _ _ _ h
          omega
      · rw [if_neg hb] at h
        exact ih _ _ _ _ h
    | record contrib =>
      rw [process_file_go] at h
      simp only [malformedCount]
      by_cases hb : batch_size ≤ (getBatch (_collect_batches contrib cur) "main").length
      · rw [if_pos hb] at h
        rcases hl : load s (_collect_batches contrib cur) with ⟨s2, ok⟩
        rw [hl] at h
        cases ok
        · by_cases hm : max_errors ≤ errs + 1
          · simp [hm] at h
          · simp only [hm, if_false] at h
            have := ih _ _ _ _ h
            omega
        · have := ih _ _ _ _ h
          omega
      · rw [if_neg hb] at h
        exact ih _ _ _ _ h

theorem completedOf_save_state (now e1 cf stt e : String) (st : CheckpointState) :
    completedOf e (save_state now e1 cf stt st) = completedOf e st := by
  by_cases h : e = e1
  · subst h
    cases hg : getVal st.entities e <;>
      simp [completedOf, save_state, getVal_setVal_self, hg]
  · simp [completedOf, save_state, getVal_setVal_ne _ _ _ h]

theorem completedOf_mark_entity_complete (now e1 e : String) (st : CheckpointState) :
    completedOf e (mark_entity_complete now e1 st) = completedOf e st := by
  by_cases h : e = e1
  · subst h
    cases hg : getVal st.entities e <;>
      simp [completedOf, mark_entity_complete, getVal_setVal_self, hg]
  · simp [completedOf, mark_entity_complete, getVal_setVal_ne _ _ _ h]

theorem not_mem_completedOf_mark (now e1 f e p : String) (st : CheckpointState)
    (hp : p ∉ completedOf e st) (hpf : p ≠ f) :
    p ∉ completedOf e (mark_file_complete now e1 f st) := by
  by_cases h : e = e1
  · subst h
    cases hg : getVal st.entities e <;>
      simp only [completedOf, mark_file_complete, getVal_setVal_self, hg] at hp ⊢ <;>
      by_cases hf : f ∈ (((getVal st.entities e).getD {}).completed_files) <;>
      simp_all [completedOf, hg]
  · have hsame : completedOf e (mark_file_complete now e1 f st) = completedOf e st := by
      simp [completedOf, mark_file_complete, getVal_setVal_ne _ _ _ h]
    rw [hsame]
    exact hp

/-- A processor callback that fails on every file. -/
def procOkC6 : String → Bool := fun _ => false

/-- A fetcher that succeeds on every file. -/
def dlOkC6 : String → Bool := fun _ => true

/-- C6: (a) whenever the number of malformed lines in a file reaches or
exceeds the configured ceiling `max_errors`, `process_file` reports failure
(whatever the flush collaborator does); and (b) a file whose processor
callback reported failure is never added to `completed_files` by the
download/process loop — processing stops at it without marking it. -/
theorem C6_error_ceiling {σ : Type} (batch_size max_errors : Nat)
    (load : σ → Batches → σ × Bool) (lines : List LineResult) (s : σ)
    (now entity_type p : String) (dlOk procOk : String → Bool)
    (files : List FileInfo) (st : CheckpointState) :
    (max_errors ≤ malformedCount lines →
      (process_file batch_size max_errors load lines s).2.1 = false)
    ∧ (procOk p = false → p ∉ completedOf entity_type st →
        p ∉ completedOf entity_type
          (process_entity_go now entity_type dlOk procOk files st).1) := by
  constructor
  · intro hm
    cases hb : (process_file batch_size max_errors load lines s).2.1 with
    | false => rfl
    | true =>
      rw [process_file] at hb
      have := process_file_go_success_bound batch_size max_errors load lines s
        emptyBatches 0 0 hb
      omega
  · intro hproc
    induction files generalizing st with
    | nil =>
      intro hp
      rw [process_entity_go]
      rw [completedOf_mark_entity_complete]
      exact hp
    | cons fi rest ih =>
      intro hp
      rw [process_entity_go]
      by_cases hdl : dlOk fi.full_path = true
      · rw [if_pos hdl]
        by_cases hpr : procOk fi.full_path = true
        · rw [if_pos hpr]
          apply ih
          apply not_mem_completedOf_mark
          · rw [completedOf_save_state]
            exact hp
          · intro hpe
            rw [← hpe, hproc] at hpr
            exact Bool.false_ne_true hpr
        · rw [if_neg hpr]
          rw [completedOf_save_state]
          exact hp
      · rw [if_neg hdl]
        rw [completedOf_save_state]
        exact hp

/-- Witness for C6: one malformed line with ceiling 1 fails the file, and a
file with a failing callback stays out of `completed_files`. -/
theorem C6_error_ceiling_witness :
    (process_file 1000 1 alwaysOkLoad [LineResult.parseError] ()).2.1 = false
    ∧ "updated_date=2024-02-01/f.gz" ∉ completedOf "authors"
        (process_entity_go "t1" "authors" dlOkC6 procOkC6
          [FileInfo.mk "updated_date=2024-02-01/" "f.gz" "updated_date=2024-02-01/f.gz"]
          (initial_state "t0")).1 :=
  ⟨(C6_error_ceiling 1000 1 alwaysOkLoad [LineResult.parseError] () "t1" "authors"
      "updated_date=2024-02-01/f.gz" dlOkC6 procOkC6
      [FileInfo.mk "updated_date=2024-02-01/" "f.gz" "updated_date=2024-02-01/f.gz"]
      (initial_state "t0")).1 (by decide),
   (C6_error_ceiling 1000 1 alwaysOkLoad [LineResult.parseError] () "t1" "authors"
      "updated_date=2024-02-01/f.gz" dlOkC6 procOkC6
      [FileInfo.mk "updated_date=2024-02-01/" "f.gz" "updated_date=2024-02-01/f.gz"]
      (initial_state "t0")).2 rfl (by decide)⟩

/-! ## C7: one flush is one transaction -/

theorem execWrites_none (writeOk : String → List Row → Bool) :
    ∀ (ws : List (String × List Row)) (db : Db),
      (∃ w ∈ ws, writeOk w.1 w.2 = false) → execWrites writeOk ws db = none := by
  intro ws
  induction ws with
  | nil =>
    rintro db ⟨w, hw, _⟩
    exact absurd hw (List.not_mem_nil w)
  | cons tw rest ih =>
    rcases tw with ⟨t, rows⟩
    rintro db ⟨w, hw, hfail⟩
    rw [execWrites]
    by_cases hok : writeOk t rows = true
    · rw [if_pos hok]
      apply ih
      rcases List.mem_cons.mp hw with rfl | hw'
      · rw [hfail] at hok
        exact absurd hok Bool.false_ne_true
      · exact ⟨w, hw', hfail⟩
    · rw [if_neg hok]

theorem execWrites_isSome (writeOk : String → List Row → Bool) :
    ∀ (ws : List (String × List Row)) (db : Db),
      (∀ w ∈ ws, writeOk w.1 w.2 = true) → (execWrites writeOk ws db).isSome = true := by
  intro ws
  induction ws with
  | nil =>
    intro db _
    rfl
  | cons tw rest ih =>
    rcases tw with ⟨t, rows⟩
    intro db hall
    rw [execWrites, if_pos (hall (t, rows) (List.mem_cons_self _ _))]
    exact ih _ (fun w hw => hall w (List.mem_cons_of_mem _ hw))

/-- C7: one flush commits as a single transaction — when the call reports
failure the committed store is exactly as before (nothing from the flush is
visible: rollback); any single table write being rejected makes the whole
call return `(db, false)`; and when every per-table write is accepted for a
supported entity type the flush commits and reports success.  (`load_batches`
takes no checkpoint state at all, so no checkpoint progress can be recorded
by a flush.) -/
theorem C7_flush_transactional (writeOk : String → List Row → Bool)
    (entity_type : String) (batches : Batches) (db : Db) :
    ((load_batches writeOk entity_type batches db).2 = false →
        (load_batches writeOk entity_type batches db).1 = db)
    ∧ ((∃ w ∈ flushWrites entity_type batches, writeOk w.1 w.2 = false) →
        load_batches writeOk entity_type batches db = (db, false))
    ∧ ((getVal table_mapping entity_type).isSome = true →
        (∀ w ∈ flushWrites entity_type batches, writeOk w.1 w.2 = true) →
        (load_batches writeOk entity_type batches db).2 = true) := by
  refine ⟨?_, ?_, ?_⟩
  · intro hfalse
    rw [load_batches] at hfalse ⊢
    by_cases hsup : (getVal table_mapping entity_type).isNone = true
    · rw [if_pos hsup]
    · rw [if_neg hsup] at hfalse ⊢
      cases hex : execWrites writeOk (flushWrites entity_type batches) db with
      | none => rfl
      | some db2 =>
        rw [hex] at hfalse
        simp at hfalse
  · intro hex
    rw [load_batches]
    by_cases hsup : (getVal table_mapping entity_type).isNone = true
    · rw [if_pos hsup]
    · rw [if_neg hsup, execWrites_none writeOk _ db hex]
  · intro hsome hall
    rw [load_batches]
    have hnotnone : ¬ (getVal table_mapping entity_type).isNone = true := by
      cases hg : getVal table_mapping entity_type
      · rw [hg] at hsome
        exact absurd hsome Bool.false_ne_true
      · simp [hg]
    rw [if_neg hnotnone]
    have := execWrites_isSome writeOk (flushWrites entity_type batches) db hall
    cases hex : execWrites writeOk (flushWrites entity_type batches) db with
    | none =>
      rw [hex] at this
      exact absurd this Bool.false_ne_true
    | some db2 => rfl

/-- A destination store that rejects every write. -/
def failAllWrites : String → List Row → Bool := fun _ _ => false

/-- A destination store that accepts every write. -/
def okAllWrites : String → List Row → Bool := fun _ _ => true

/-- Buffers holding one `authors` main row, as passed to a flush. -/
def batchesC7 : Batches := _collect_batches [("main", [1])] emptyBatches

/-- Witness for C7: a rejected write rolls the flush back on an empty store
and surfaces `false`; with all writes accepted the same flush succeeds. -/
theorem C7_flush_transactional_witness :
    load_batches failAllWrites "authors" batchesC7 [] = ([], false)
    ∧ (load_batches okAllWrites "authors" batchesC7 []).2 = true :=
  ⟨(C7_flush_transactional failAllWrites "authors" batchesC7 []).2.1
      ⟨("openalex.authors", [1]), by decide, rfl⟩,
   (C7_flush_transactional okAllWrites "authors" batchesC7 []).2.2 (by decide)
      (fun w _ => rfl)⟩

/-! ## C10: a failed mid-file flush is counted, discarded and not re-sent -/

/-- A flush collaborator that records every flushed batch dictionary and
fails exactly on the flush indices in `failIdx`. -/
def traceLoad (failIdx : List Nat) : List Batches → Batches → List Batches × Bool :=
  fun log b => (log ++ [b], decide (log.length ∉ failIdx))

/-- The buffers at C10's first flush (one `main` row `1`). -/
def batchOneC10 : Batches := _collect_batches [("main", [1])] emptyBatches

/-- The buffers at C10's second flush (one `main` row `2`). -/
def batchTwoC10 : Batches := _collect_batches [("main", [2])] emptyBatches

/-- C10: with `batch_size = 1` and the first flush failing (error count 1,
below `max_errors = 100`), `process_file` still adds the failed batch's size
to `records_processed`, clears every buffer — the flush trace shows the
failed batch's rows sent exactly once and absent from the later flush — and
the file is reported successful; marking it complete then records it in
`completed_files`. -/
theorem C10_failed_flush_discarded :
    (process_file 1 100 (traceLoad [0]) twoRecordLines []).1 = [batchOneC10, batchTwoC10]
    ∧ (process_file 1 100 (traceLoad [0]) twoRecordLines []).2 = (true, 2, 1)
    ∧ getBatch batchOneC10 "main" = [1]
    ∧ getBatch batchTwoC10 "main" = [2]
    ∧ "f.gz" ∈ completedOf "authors"
        (mark_file_complete "t1" "authors" "f.gz" (initial_state "t0")) := by
  decide
